import Mathlib

/-!
# GoAgent: the lookup tables and the tool-call resolution round trip

A shallow embedding of `main.go`: the two lookup functions `getWeather` and
`getHumidity`, and `main`, whose network round trips, decoded tool calls and
printed text are made explicit as a trace of events.

The program calls three library functions whose results decide its behaviour.
They are embedded as Go defines them:

* `strings.ToLower` (with `unicode.ToLower` and the lower-case column of
  `unicode.CaseRanges`),
* `json.Unmarshal` into a `map[string]interface{}`,
* `strings.TrimSpace` and `bufio.Reader.ReadString`.

A Go `string` is embedded as a Lean `String`, that is, as well-formed UTF-8.
A `float64` decoded from JSON is kept as its literal; only whether it is in
range is computed, exactly. A panic is the end of the run: the text the Go
runtime then writes to standard error is not part of the trace.
-/

namespace GoAgent

/-! ## `strings.ToLower` -/

/-- Largest valid code point, Go's `unicode.MaxRune`. -/
def MaxRune : Nat := 0x10FFFF

/-- Go's `unicode.UpperLower`: the delta of a range of alternating upper and
lower case letters. -/
def UpperLower : Int := 0x10FFFF + 1

/-- A `unicode.CaseRange` restricted to its `LowerCase` delta. -/
structure CaseRange where
  Lo : Nat
  Hi : Nat
  Delta : Int

/-- A range whose lower-case letters lie `d` code points above: `d{_, d, _}`. -/
def up (lo hi d : Nat) : CaseRange := ⟨lo, hi, d⟩

/-- A range whose lower-case letters lie `d` code points below: `d{_, -d, _}`. -/
def dn (lo hi d : Nat) : CaseRange := ⟨lo, hi, -d⟩

/-- A range of alternating upper and lower case letters:
`d{UpperLower, UpperLower, UpperLower}`. -/
def ul (lo hi : Nat) : CaseRange := ⟨lo, hi, UpperLower⟩

/-- The `LowerCase` column of `unicode.CaseRanges` above ASCII: the simple
lower-case mappings of the Unicode character database, on which versions 14.0
and 15.0 agree. Ranges whose lower-case delta is zero are left out, since
`unicode.to` gives back the rune itself for them either way. -/
def caseRanges : List CaseRange := [
  up 0x00C0 0x00D6 32, up 0x00D8 0x00DE 32, ul 0x0100 0x012F,
  dn 0x0130 0x0130 199, ul 0x0132 0x0137, ul 0x0139 0x0148,
  ul 0x014A 0x0177, dn 0x0178 0x0178 121, ul 0x0179 0x017E,
  up 0x0181 0x0181 210, ul 0x0182 0x0185, up 0x0186 0x0186 206,
  up 0x0187 0x0187 1, up 0x0189 0x018A 205, up 0x018B 0x018B 1, up 0x018E 0x018E 79,
  up 0x018F 0x018F 202, up 0x0190 0x0190 203, up 0x0191 0x0191 1, up 0x0193 0x0193 205,
  up 0x0194 0x0194 207, up 0x0196 0x0196 211, up 0x0197 0x0197 209, up 0x0198 0x0198 1,
  up 0x019C 0x019C 211, up 0x019D 0x019D 213, up 0x019F 0x019F 214,
  ul 0x01A0 0x01A5, up 0x01A6 0x01A6 218, up 0x01A7 0x01A7 1,
  up 0x01A9 0x01A9 218, up 0x01AC 0x01AC 1, up 0x01AE 0x01AE 218, up 0x01AF 0x01AF 1,
  up 0x01B1 0x01B2 217, ul 0x01B3 0x01B6, up 0x01B7 0x01B7 219,
  up 0x01B8 0x01B8 1, up 0x01BC 0x01BC 1, up 0x01C4 0x01C4 2, up 0x01C5 0x01C5 1,
  up 0x01C7 0x01C7 2, up 0x01C8 0x01C8 1, up 0x01CA 0x01CA 2, ul 0x01CB 0x01DC,
  ul 0x01DE 0x01EF, up 0x01F1 0x01F1 2, ul 0x01F2 0x01F5,
  dn 0x01F6 0x01F6 97, dn 0x01F7 0x01F7 56, ul 0x01F8 0x021F,
  dn 0x0220 0x0220 130, ul 0x0222 0x0233, up 0x023A 0x023A 10795,
  up 0x023B 0x023B 1, dn 0x023D 0x023D 163, up 0x023E 0x023E 10792, up 0x0241 0x0241 1,
  dn 0x0243 0x0243 195, up 0x0244 0x0244 69, up 0x0245 0x0245 71,
  ul 0x0246 0x024F, ul 0x0370 0x0373, up 0x0376 0x0376 1,
  up 0x037F 0x037F 116, up 0x0386 0x0386 38, up 0x0388 0x038A 37, up 0x038C 0x038C 64,
  up 0x038E 0x038F 63, up 0x0391 0x03A1 32, up 0x03A3 0x03AB 32, up 0x03CF 0x03CF 8,
  ul 0x03D8 0x03EF, dn 0x03F4 0x03F4 60, up 0x03F7 0x03F7 1, dn 0x03F9 0x03F9 7,
  up 0x03FA 0x03FA 1, dn 0x03FD 0x03FF 130, up 0x0400 0x040F 80, up 0x0410 0x042F 32,
  ul 0x0460 0x0481, ul 0x048A 0x04BF, up 0x04C0 0x04C0 15,
  ul 0x04C1 0x04CE, ul 0x04D0 0x052F, up 0x0531 0x0556 48,
  up 0x10A0 0x10C5 7264, up 0x10C7 0x10C7 7264, up 0x10CD 0x10CD 7264,
  up 0x13A0 0x13EF 38864, up 0x13F0 0x13F5 8, dn 0x1C90 0x1CBA 3008, dn 0x1CBD 0x1CBF 3008,
  ul 0x1E00 0x1E95, dn 0x1E9E 0x1E9E 7615, ul 0x1EA0 0x1EFF,
  dn 0x1F08 0x1F0F 8, dn 0x1F18 0x1F1D 8, dn 0x1F28 0x1F2F 8, dn 0x1F38 0x1F3F 8,
  dn 0x1F48 0x1F4D 8, dn 0x1F59 0x1F59 8, dn 0x1F5B 0x1F5B 8, dn 0x1F5D 0x1F5D 8,
  dn 0x1F5F 0x1F5F 8, dn 0x1F68 0x1F6F 8, dn 0x1F88 0x1F8F 8, dn 0x1F98 0x1F9F 8,
  dn 0x1FA8 0x1FAF 8, dn 0x1FB8 0x1FB9 8, dn 0x1FBA 0x1FBB 74, dn 0x1FBC 0x1FBC 9,
  dn 0x1FC8 0x1FCB 86, dn 0x1FCC 0x1FCC 9, dn 0x1FD8 0x1FD9 8, dn 0x1FDA 0x1FDB 100,
  dn 0x1FE8 0x1FE9 8, dn 0x1FEA 0x1FEB 112, dn 0x1FEC 0x1FEC 7, dn 0x1FF8 0x1FF9 128,
  dn 0x1FFA 0x1FFB 126, dn 0x1FFC 0x1FFC 9, dn 0x2126 0x2126 7517, dn 0x212A 0x212A 8383,
  dn 0x212B 0x212B 8262, up 0x2132 0x2132 28, up 0x2160 0x216F 16, up 0x2183 0x2183 1,
  up 0x24B6 0x24CF 26, up 0x2C00 0x2C2F 48, up 0x2C60 0x2C60 1, dn 0x2C62 0x2C62 10743,
  dn 0x2C63 0x2C63 3814, dn 0x2C64 0x2C64 10727, ul 0x2C67 0x2C6C,
  dn 0x2C6D 0x2C6D 10780, dn 0x2C6E 0x2C6E 10749, dn 0x2C6F 0x2C6F 10783,
  dn 0x2C70 0x2C70 10782, up 0x2C72 0x2C72 1, up 0x2C75 0x2C75 1, dn 0x2C7E 0x2C7F 10815,
  ul 0x2C80 0x2CE3, ul 0x2CEB 0x2CEE, up 0x2CF2 0x2CF2 1,
  ul 0xA640 0xA66D, ul 0xA680 0xA69B, ul 0xA722 0xA72F,
  ul 0xA732 0xA76F, ul 0xA779 0xA77C, dn 0xA77D 0xA77D 35332,
  ul 0xA77E 0xA787, up 0xA78B 0xA78B 1, dn 0xA78D 0xA78D 42280,
  ul 0xA790 0xA793, ul 0xA796 0xA7A9, dn 0xA7AA 0xA7AA 42308,
  dn 0xA7AB 0xA7AB 42319, dn 0xA7AC 0xA7AC 42315, dn 0xA7AD 0xA7AD 42305,
  dn 0xA7AE 0xA7AE 42308, dn 0xA7B0 0xA7B0 42258, dn 0xA7B1 0xA7B1 42282,
  dn 0xA7B2 0xA7B2 42261, up 0xA7B3 0xA7B3 928, ul 0xA7B4 0xA7C3,
  dn 0xA7C4 0xA7C4 48, dn 0xA7C5 0xA7C5 42307, dn 0xA7C6 0xA7C6 35384,
  ul 0xA7C7 0xA7CA, up 0xA7D0 0xA7D0 1, ul 0xA7D6 0xA7D9,
  up 0xA7F5 0xA7F5 1, up 0xFF21 0xFF3A 32, up 0x10400 0x10427 40, up 0x104B0 0x104D3 40,
  up 0x10570 0x1057A 39, up 0x1057C 0x1058A 39, up 0x1058C 0x10592 39, up 0x10594 0x10595 39,
  up 0x10C80 0x10CB2 64, up 0x118A0 0x118BF 32, up 0x16E40 0x16E5F 32, up 0x1E900 0x1E921 34
]

/-- Go's `unicode.to(LowerCase, r, caseRange)`. The ranges are sorted and
disjoint, so the first range that holds `r` is the one Go's binary search finds.
In an `UpperLower` range Go returns `Lo + ((r-Lo)&^1 | 1)`: the offset with its
low bit set. -/
def unicodeTo (r : Nat) : List CaseRange → Nat
  | [] => r
  | cr :: rest =>
    if cr.Lo ≤ r ∧ r ≤ cr.Hi then
      if cr.Delta > (MaxRune : Int) then cr.Lo + ((r - cr.Lo) / 2 * 2 + 1)
      else (r + cr.Delta).toNat
    else unicodeTo r rest

/-- The ASCII branch shared by `unicode.ToLower` and `strings.ToLower`:
`if 'A' <= c && c <= 'Z' { c += 'a' - 'A' }`. -/
def lowerASCII (c : Char) : Char :=
  if 65 ≤ c.toNat ∧ c.toNat ≤ 90 then Char.ofNat (c.toNat + 32) else c

/-- Go's `unicode.ToLower`. -/
def unicodeToLower (r : Char) : Char :=
  if r.toNat ≤ 0x7F then lowerASCII r
  else Char.ofNat (unicodeTo r.toNat caseRanges)

/-- Go's `strings.ToLower`: ASCII-only strings are handled byte by byte (and
returned as they are when they hold no upper-case letter), every other string
goes through `strings.Map(unicode.ToLower, s)`. -/
def ToLower (s : String) : String :=
  let isASCII := s.data.all fun c => decide (c.toNat < 0x80)
  let hasUpper := s.data.any fun c => decide (65 ≤ c.toNat ∧ c.toNat ≤ 90)
  if isASCII then
    if !hasUpper then s
    else String.mk (s.data.map lowerASCII)
  else String.mk (s.data.map unicodeToLower)

/-! ## The lookup tables (`main.go`, lines 117-147) -/

/-- Mock weather lookup, `getWeather` of `main.go`. -/
def getWeather (location : String) : String :=
  let l := ToLower location
  if l = "patiala" then "10°C"
  else if l = "delhi" then "14°C"
  else if l = "nainital" then "5°C"
  else if l = "dehradun" then "12°C"
  else "Unknown"

/-- Mock humidity lookup, `getHumidity` of `main.go`. -/
def getHumidity (location : String) : String :=
  let l := ToLower location
  if l = "patiala" then "40%"
  else if l = "delhi" then "55%"
  else if l = "nainital" then "70%"
  else if l = "dehradun" then "60%"
  else "Unknown"

/-! ## `bufio.Reader.ReadString` and `strings.TrimSpace` -/

/-- The result of `reader.ReadString('\n')` on a fresh reader over standard
input: everything up to and including the first line feed, or all of the input
when it holds none (the error is dropped by `main`). -/
def ReadString : List Char → List Char
  | [] => []
  | c :: rest => if c = Char.ofNat 10 then [c] else c :: ReadString rest

/-- Go's `unicode.IsSpace`: the Latin-1 spaces and the `White_Space` property. -/
def IsSpace (c : Char) : Bool :=
  let r := c.toNat
  (9 ≤ r ∧ r ≤ 13) ∨ r = 0x20 ∨ r = 0x85 ∨ r = 0xA0 ∨ r = 0x1680 ∨ (0x2000 ≤ r ∧ r ≤ 0x200A)
    ∨ r = 0x2028 ∨ r = 0x2029 ∨ r = 0x202F ∨ r = 0x205F ∨ r = 0x3000

/-- Go's `strings.TrimSpace`: all leading and trailing white space removed (the
ASCII fast path and `TrimFunc(s, unicode.IsSpace)` agree on the result). -/
def TrimSpace (s : String) : String :=
  String.mk ((s.data.dropWhile IsSpace).reverse.dropWhile IsSpace).reverse

/-! ## `json.Unmarshal` into a `map[string]interface{}` -/

/-- A number literal of a JSON text, as `strconv.ParseFloat` reads it: the digits
of the integer and fraction parts as one natural number, the count of fraction
digits, and the exponent. The exponent stops growing at 10000, as in Go
(`if e < 10000 { e = e*10 + digit }`). -/
structure NumLit where
  text : List Char
  mant : Nat
  fracLen : Nat
  expNeg : Bool
  exp : Nat

/-- What the decoder stores in an `interface{}`: `nil`, `bool`, `float64` (kept
as its literal), `string`, `[]interface{}` or `map[string]interface{}`. -/
inductive JValue where
  | null
  | bool (b : Bool)
  | number (n : NumLit)
  | string (s : String)
  | array (elems : List JValue)
  | object (fields : List (String × JValue))

/-- A Go `map[string]interface{}` that is not nil: its keys are distinct. -/
abbrev GoMap := List (String × JValue)

/-- Map assignment `m[k] = v`. -/
def GoMap.set : GoMap → String → JValue → GoMap
  | [], k, v => [(k, v)]
  | (k0, v0) :: rest, k, v => if k0 = k then (k, v) :: rest else (k0, v0) :: GoMap.set rest k v

/-- Map index `m[k]`; `none` is the zero value, the nil interface. -/
def GoMap.get : GoMap → String → Option JValue
  | [], _ => none
  | (k0, v0) :: rest, k => if k0 = k then some v0 else GoMap.get rest k

/-- The quotation mark. -/
def quoteChar : Char := Char.ofNat 34

/-- The reverse solidus. -/
def backslashChar : Char := Char.ofNat 92

/-- The lexical units of a JSON text. -/
inductive Token where
  | beginObject
  | endObject
  | beginArray
  | endArray
  | colon
  | comma
  | str (s : String)
  | num (n : NumLit)
  | litTrue
  | litFalse
  | litNull

/-- Where the scanner stands inside a token (Go's `stateInString`, `stateNeg`,
`state1`, `state0`, `stateDot`, `stateDot0`, `stateE`, `stateESign`, `stateE0`,
`stateT`..., with the text read so far). -/
inductive LexState where
  | ready
  | inString (acc : List Char)
  | inStringEsc (acc : List Char)
  | inStringEscU (acc : List Char) (seen : Nat)
  | neg (n : NumLit)
  | int (n : NumLit)
  | zero (n : NumLit)
  | dot (n : NumLit)
  | dot0 (n : NumLit)
  | e (n : NumLit)
  | eSign (n : NumLit)
  | e0 (n : NumLit)
  | literal (rest : List Char) (tok : Token)

/-- Go's `isSpace` of the JSON scanner. -/
def isSpaceJSON (c : Char) : Bool :=
  c.toNat ≤ 0x20 ∧ (c = ' ' ∨ c.toNat = 9 ∨ c.toNat = 13 ∨ c.toNat = 10)

/-- Decimal digit. -/
def isDigit (c : Char) : Bool := 48 ≤ c.toNat ∧ c.toNat ≤ 57

/-- Hexadecimal digit, as `stateInStringEscU` accepts it. -/
def isHex (c : Char) : Bool :=
  (48 ≤ c.toNat ∧ c.toNat ≤ 57) ∨ (97 ≤ c.toNat ∧ c.toNat ≤ 102) ∨ (65 ≤ c.toNat ∧ c.toNat ≤ 70)

/-- Value of a hexadecimal digit, as in `getu4`. -/
def hexVal (c : Char) : Nat :=
  if 48 ≤ c.toNat ∧ c.toNat ≤ 57 then c.toNat - 48
  else if 97 ≤ c.toNat ∧ c.toNat ≤ 102 then c.toNat - 97 + 10
  else c.toNat - 65 + 10

/-- Go's `getu4`: the code unit of a leading `\uXXXX` escape, if there is one. -/
def getu4 : List Char → Option Nat
  | b :: u :: h1 :: h2 :: h3 :: h4 :: _ =>
    if b = backslashChar ∧ u = 'u' ∧ isHex h1 ∧ isHex h2 ∧ isHex h3 ∧ isHex h4 then
      some (((hexVal h1 * 16 + hexVal h2) * 16 + hexVal h3) * 16 + hexVal h4)
    else none
  | _ => none

/-- The character a one-letter escape stands for (`unquoteBytes`). -/
def unescape (c : Char) : Char :=
  if c = 'b' then Char.ofNat 8
  else if c = 'f' then Char.ofNat 12
  else if c = 'n' then Char.ofNat 10
  else if c = 'r' then Char.ofNat 13
  else if c = 't' then Char.ofNat 9
  else c

/-- Go's `unquoteBytes` on the text between the quotation marks of a string the
scanner has accepted. `skip` counts the characters of an escape still to be
passed over. A `\u` escape of a surrogate is joined with a following low
surrogate escape (`utf16.DecodeRune`), and is U+FFFD when there is none. -/
def unquoteFrom : Nat → List Char → List Char
  | _, [] => []
  | skip + 1, _ :: rest => unquoteFrom skip rest
  | 0, c :: rest =>
    if c = backslashChar then
      match getu4 (c :: rest) with
      | some rr =>
        if 0xD800 ≤ rr ∧ rr < 0xE000 then
          match getu4 (rest.drop 5) with
          | some rr1 =>
            if rr < 0xDC00 ∧ 0xDC00 ≤ rr1 ∧ rr1 < 0xE000 then
              Char.ofNat ((rr - 0xD800) * 1024 + (rr1 - 0xDC00) + 0x10000) :: unquoteFrom 11 rest
            else Char.ofNat 0xFFFD :: unquoteFrom 5 rest
          | none => Char.ofNat 0xFFFD :: unquoteFrom 5 rest
        else Char.ofNat rr :: unquoteFrom 5 rest
      | none =>
        match rest with
        | [] => []
        | esc :: _ => unescape esc :: unquoteFrom 1 rest
    else c :: unquoteFrom 0 rest

/-- The Go string a JSON string literal denotes. -/
def unquote (raw : List Char) : String := String.mk (unquoteFrom 0 raw)

/-- Appends a mantissa digit to a number literal. -/
def NumLit.digit (n : NumLit) (c : Char) (frac : Bool) : NumLit :=
  { n with text := c :: n.text, mant := n.mant * 10 + (c.toNat - 48),
           fracLen := if frac then n.fracLen + 1 else n.fracLen }

/-- Appends an exponent digit to a number literal. -/
def NumLit.expDigit (n : NumLit) (c : Char) : NumLit :=
  { n with text := c :: n.text, exp := if n.exp < 10000 then n.exp * 10 + (c.toNat - 48) else n.exp }

/-- Appends a character that carries no digit (sign, point, exponent mark). -/
def NumLit.mark (n : NumLit) (c : Char) : NumLit := { n with text := c :: n.text }

/-- Half way between the largest `float64` and `2^1024`: a decimal of at least
this magnitude rounds to infinity. -/
def float64Overflow : Nat := (2 ^ 54 - 1) * 2 ^ 970

/-- Whether `strconv.ParseFloat(s, 64)` reports `ErrRange` for the literal, which
`convertNumber` turns into an `UnmarshalTypeError`. -/
def NumLit.outOfRange (n : NumLit) : Bool :=
  if n.mant = 0 then false
  else if n.expNeg then decide (float64Overflow * 10 ^ (n.exp + n.fracLen) ≤ n.mant)
  else if n.fracLen ≤ n.exp then decide (float64Overflow ≤ n.mant * 10 ^ (n.exp - n.fracLen))
  else decide (float64Overflow * 10 ^ (n.fracLen - n.exp) ≤ n.mant)

/-- The scanner between two tokens: white space is passed over, a punctuation
mark is a token, and the first character of a string, number or literal opens
it. `none` is a syntax error. -/
def lexReady (toks : List Token) (c : Char) : Option (LexState × List Token) :=
  if isSpaceJSON c then some (.ready, toks)
  else if c = '{' then some (.ready, .beginObject :: toks)
  else if c = '}' then some (.ready, .endObject :: toks)
  else if c = '[' then some (.ready, .beginArray :: toks)
  else if c = ']' then some (.ready, .endArray :: toks)
  else if c = ':' then some (.ready, .colon :: toks)
  else if c = ',' then some (.ready, .comma :: toks)
  else if c = quoteChar then some (.inString [], toks)
  else if c = '-' then some (.neg ⟨[c], 0, 0, false, 0⟩, toks)
  else if c = '0' then some (.zero ⟨[c], 0, 0, false, 0⟩, toks)
  else if isDigit c then some (.int ⟨[c], c.toNat - 48, 0, false, 0⟩, toks)
  else if c = 't' then some (.literal ['r', 'u', 'e'] .litTrue, toks)
  else if c = 'f' then some (.literal ['a', 'l', 's', 'e'] .litFalse, toks)
  else if c = 'n' then some (.literal ['u', 'l', 'l'] .litNull, toks)
  else none

/-- One step of the scanner on the character `c`. The tokens are collected in
reverse. A number ends at the first character that cannot continue it, and that
character is then read as the scanner reads it between tokens. -/
def lexStep (st : LexState) (toks : List Token) (c : Char) : Option (LexState × List Token) :=
  match st with
  | .ready => lexReady toks c
  | .inString acc =>
    if c = quoteChar then some (.ready, .str (unquote acc.reverse) :: toks)
    else if c = backslashChar then some (.inStringEsc (c :: acc), toks)
    else if c.toNat < 0x20 then none
    else some (.inString (c :: acc), toks)
  | .inStringEsc acc =>
    if c = 'b' ∨ c = 'f' ∨ c = 'n' ∨ c = 'r' ∨ c = 't' ∨ c = backslashChar ∨ c = '/' ∨ c = quoteChar then
      some (.inString (c :: acc), toks)
    else if c = 'u' then some (.inStringEscU (c :: acc) 0, toks)
    else none
  | .inStringEscU acc seen =>
    if isHex c then
      if seen < 3 then some (.inStringEscU (c :: acc) (seen + 1), toks)
      else some (.inString (c :: acc), toks)
    else none
  | .neg n =>
    if c = '0' then some (.zero (n.digit c false), toks)
    else if isDigit c then some (.int (n.digit c false), toks)
    else none
  | .int n =>
    if isDigit c then some (.int (n.digit c false), toks)
    else if c = '.' then some (.dot (n.mark c), toks)
    else if c = 'e' ∨ c = 'E' then some (.e (n.mark c), toks)
    else lexReady (.num n :: toks) c
  | .zero n =>
    if c = '.' then some (.dot (n.mark c), toks)
    else if c = 'e' ∨ c = 'E' then some (.e (n.mark c), toks)
    else lexReady (.num n :: toks) c
  | .dot n =>
    if isDigit c then some (.dot0 (n.digit c true), toks) else none
  | .dot0 n =>
    if isDigit c then some (.dot0 (n.digit c true), toks)
    else if c = 'e' ∨ c = 'E' then some (.e (n.mark c), toks)
    else lexReady (.num n :: toks) c
  | .e n =>
    if c = '+' then some (.eSign (n.mark c), toks)
    else if c = '-' then some (.eSign { n.mark c with expNeg := true }, toks)
    else if isDigit c then some (.e0 (n.expDigit c), toks)
    else none
  | .eSign n =>
    if isDigit c then some (.e0 (n.expDigit c), toks) else none
  | .e0 n =>
    if isDigit c then some (.e0 (n.expDigit c), toks)
    else lexReady (.num n :: toks) c
  | .literal rest tok =>
    match rest with
    | [] => none
    | [l] => if c = l then some (.ready, tok :: toks) else none
    | l :: more => if c = l then some (.literal more tok, toks) else none

/-- The scanner run over a text; at its end a blank is fed, as `scanner.eof`
does, which closes a number and is an error inside any other token. -/
def lex : LexState → List Token → List Char → Option (List Token)
  | st, toks, [] =>
    match lexStep st toks ' ' with
    | some (.ready, toks1) => some toks1.reverse
    | _ => none
  | st, toks, c :: rest =>
    match lexStep st toks c with
    | some (st1, toks1) => lex st1 toks1 rest
    | none => none

/-- An array or object that is still open (Go's `parseState` stack, with what
has been decoded of it). An object frame holds the key whose value is awaited. -/
inductive Frame where
  | arr (elems : List JValue)
  | obj (fields : GoMap) (key : Option String)

/-- What the scanner accepts next (Go's `stateBeginValue`,
`stateBeginValueOrEmpty`, `stateBeginStringOrEmpty`, `stateBeginString`,
`stateEndValue` after a key and after a value, `stateEndTop`). -/
inductive Expect where
  | value
  | valueOrEmpty
  | stringOrEmpty
  | string
  | colon
  | endValue
  | endTop (v : JValue)

/-- Go's `maxNestingDepth`. -/
def maxNestingDepth : Nat := 10000

/-- A value is complete: it is the whole text, the next element of the open
array, or the value of the awaited key of the open object. -/
def endOfValue (v : JValue) : List Frame → Option (Expect × List Frame)
  | [] => some (.endTop v, [])
  | .arr elems :: stack => some (.endValue, .arr (v :: elems) :: stack)
  | .obj fields (some k) :: stack => some (.endValue, .obj (fields.set k v) none :: stack)
  | .obj _ none :: _ => none

/-- A token that starts a value. Opening an array or object pushes a frame,
which is an error beyond `maxNestingDepth` open ones. -/
def beginValue (stack : List Frame) : Token → Option (Expect × List Frame)
  | .beginObject =>
    if stack.length + 1 ≤ maxNestingDepth then some (.stringOrEmpty, .obj [] none :: stack) else none
  | .beginArray =>
    if stack.length + 1 ≤ maxNestingDepth then some (.valueOrEmpty, .arr [] :: stack) else none
  | .str s => endOfValue (.string s) stack
  | .num n => endOfValue (.number n) stack
  | .litTrue => endOfValue (.bool true) stack
  | .litFalse => endOfValue (.bool false) stack
  | .litNull => endOfValue .null stack
  | _ => none

/-- A token that starts an object key. -/
def beginString (stack : List Frame) : Token → Option (Expect × List Frame)
  | .str k =>
    match stack with
    | .obj fields none :: rest => some (.colon, .obj fields (some k) :: rest)
    | _ => none
  | _ => none

/-- One step of the decoder on a token. -/
def parseStep (ex : Expect) (stack : List Frame) (tok : Token) : Option (Expect × List Frame) :=
  match ex with
  | .value => beginValue stack tok
  | .valueOrEmpty =>
    match tok, stack with
    | .endArray, .arr elems :: rest => endOfValue (.array elems.reverse) rest
    | _, _ => beginValue stack tok
  | .stringOrEmpty =>
    match tok, stack with
    | .endObject, .obj fields none :: rest => endOfValue (.object fields) rest
    | _, _ => beginString stack tok
  | .string => beginString stack tok
  | .colon =>
    match tok with
    | .colon => some (.value, stack)
    | _ => none
  | .endValue =>
    match tok, stack with
    | .comma, .arr elems :: rest => some (.value, .arr elems :: rest)
    | .endArray, .arr elems :: rest => endOfValue (.array elems.reverse) rest
    | .comma, .obj fields none :: rest => some (.string, .obj fields none :: rest)
    | .endObject, .obj fields none :: rest => endOfValue (.object fields) rest
    | _, _ => none
  | .endTop _ => none

/-- The decoder run over the tokens of a text: the value of the text, when the
text is one JSON value. -/
def parse : Expect → List Frame → List Token → Option JValue
  | .endTop v, _, [] => some v
  | _, _, [] => none
  | ex, stack, tok :: rest =>
    match parseStep ex stack tok with
    | some (ex1, stack1) => parse ex1 stack1 rest
    | none => none

/-- The number literals among the tokens. -/
def numbersOf : List Token → List NumLit
  | [] => []
  | .num n :: rest => n :: numbersOf rest
  | _ :: rest => numbersOf rest

/-- The errors `json.Unmarshal` returns: a `*json.SyntaxError`, or a
`*json.UnmarshalTypeError` naming the JSON value that cannot be stored. -/
inductive JSONError where
  | invalid
  | wrongType (value : String)
deriving DecidableEq, Repr

/-- Go's `json.Unmarshal(data, &args)` for `var args map[string]interface{}`, which is
nil before the call: the error, or `args` after the call (`none` is nil).

The text is checked first (`checkValid`). `null` leaves the map nil without an
error; an object fills a new map, a later key replacing an equal earlier one;
any other value is an `UnmarshalTypeError`. A number that `float64` cannot hold
is an `UnmarshalTypeError` as well, wherever in the object it stands. -/
def Unmarshal (data : String) : Except JSONError (Option GoMap) :=
  match lex .ready [] data.data with
  | none => .error .invalid
  | some toks =>
    match parse .value [] toks with
    | none => .error .invalid
    | some .null => .ok none
    | some (.object fields) =>
      if (numbersOf toks).any NumLit.outOfRange then .error (.wrongType "number")
      else .ok (some fields)
    | some (.array _) => .error (.wrongType "array")
    | some (.string _) => .error (.wrongType "string")
    | some (.number _) => .error (.wrongType "number")
    | some (.bool _) => .error (.wrongType "bool")

/-- Index expression `args[key]` on a map that may be nil. -/
def mapIndex (args : Option GoMap) (key : String) : Option JValue :=
  match args with
  | none => none
  | some m => m.get key

/-- Type assertion `x.(string)`: `none` is the run-time panic. -/
def assertString : Option JValue → Option String
  | some (.string s) => some s
  | _ => none

/-! ## The conversation (`openai-go` types, as far as `main` uses them) -/

/-- The function part of a tool call: `toolCall.Function`. -/
structure FunctionCall where
  Name : String
  Arguments : String
deriving DecidableEq, Repr

/-- A tool call of a model response. -/
structure ToolCall where
  ID : String
  Function : FunctionCall
deriving DecidableEq, Repr

/-- The message of a choice of a chat completion. -/
structure ChatCompletionMessage where
  Content : String
  ToolCalls : List ToolCall
deriving DecidableEq, Repr

/-- A choice of a chat completion. -/
structure Choice where
  Message : ChatCompletionMessage
deriving DecidableEq, Repr

/-- A chat completion, the response to a request. -/
structure ChatCompletion where
  Choices : List Choice
deriving DecidableEq, Repr

/-- A message of a request: `openai.UserMessage(content)`, the assistant message
`Message.ToParam()` of a response, or `openai.ToolMessage(content, toolCallID)`. -/
inductive MessageParam where
  | UserMessage (content : String)
  | AssistantMessage (message : ChatCompletionMessage)
  | ToolMessage (content : String) (toolCallID : String)
deriving DecidableEq, Repr

/-- The parameters of a request, `openai.ChatCompletionNewParams`; a tool is
given by its name. -/
structure ChatCompletionNewParams where
  Messages : List MessageParam
  Tools : List String
  Seed : Int
  Model : String
deriving DecidableEq, Repr

/-- Why the process aborted: the error of a round trip, the error of
`json.Unmarshal`, a failed type assertion, or `Choices[0]` on an empty list. -/
inductive Panic where
  | roundTrip (err : String)
  | unmarshal (err : JSONError)
  | typeAssertion
  | indexOutOfRange
deriving DecidableEq, Repr

/-- What the process does that can be observed, in order. -/
inductive Event where
  | stdout (text : String)
  | stderr (text : String)
  | request (params : ChatCompletionNewParams)
deriving DecidableEq, Repr

/-- How the process ended. -/
inductive Exit where
  | returned
  | panicked (p : Panic)
deriving DecidableEq, Repr

/-- A run of the program. -/
structure Run where
  trace : List Event
  exit : Exit
deriving DecidableEq, Repr

/-- What a run depends on: whether `godotenv.Load` failed, standard input, and
the results of the two calls of `client.Chat.Completions.New`. -/
structure World where
  dotenvFailed : Bool
  stdin : String
  first : Except String ChatCompletion
  second : ChatCompletionNewParams → Except String ChatCompletion

/-! ## `main` (`main.go`, lines 16-114) -/

/-- The body of the loop over the tool calls (lines 88-105). -/
def resolveToolCall (params : ChatCompletionNewParams) (toolCall : ToolCall) :
    Except Panic ChatCompletionNewParams :=
  match Unmarshal toolCall.Function.Arguments with
  | .error err => .error (.unmarshal err)
  | .ok args =>
    let afterWeather : Except Panic ChatCompletionNewParams :=
      if toolCall.Function.Name = "get_weather" then
        match assertString (mapIndex args "location") with
        | none => .error .typeAssertion
        | some location =>
          let weatherData := getWeather location
          .ok { params with Messages := params.Messages ++ [.ToolMessage weatherData toolCall.ID] }
      else .ok params
    match afterWeather with
    | .error p => .error p
    | .ok params =>
      if toolCall.Function.Name = "get_humidity" then
        match assertString (mapIndex args "location") with
        | none => .error .typeAssertion
        | some location =>
          let humidityData := getHumidity location
          .ok { params with Messages := params.Messages ++ [.ToolMessage humidityData toolCall.ID] }
      else .ok params

/-- The loop `for _, toolCall := range toolCalls` (lines 87-106). -/
def resolveToolCalls : List ToolCall → ChatCompletionNewParams → Except Panic ChatCompletionNewParams
  | [], params => .ok params
  | toolCall :: rest, params =>
    match resolveToolCall params toolCall with
    | .error p => .error p
    | .ok params => resolveToolCalls rest params

/-- The parameters of the first request (lines 33-69). -/
def firstParams (userInput : String) : ChatCompletionNewParams :=
  { Messages := [.UserMessage userInput], Tools := ["get_weather", "get_humidity"], Seed := 0,
    Model := "gpt-4o" }

/-- What `main` does before the first request (lines 18-31): the warning when
the settings file is missing, and the prompt. -/
def prologue (w : World) : List Event :=
  (if w.dotenvFailed then [Event.stdout "Error loading .env file\n"] else [])
    ++ [Event.stdout "Ask me for weather: "]

/-- The line read from standard input, with its white space trimmed (lines
28-31). -/
def userInput (w : World) : String := TrimSpace (String.mk (ReadString w.stdin.data))

/-- The program. -/
def main (w : World) : Run :=
  let params := firstParams (userInput w)
  let trace := prologue w ++ [Event.request params]
  match w.first with
  | .error err => ⟨trace, .panicked (.roundTrip err)⟩
  | .ok completion =>
    match completion.Choices with
    | [] => ⟨trace, .panicked .indexOutOfRange⟩
    | choice :: _ =>
      let toolCalls := choice.Message.ToolCalls
      if toolCalls.length = 0 then ⟨trace ++ [Event.stdout "No function call"], .returned⟩
      else
        let params := { params with Messages := params.Messages ++ [.AssistantMessage choice.Message] }
        match resolveToolCalls toolCalls params with
        | .error p => ⟨trace, .panicked p⟩
        | .ok params =>
          let trace := trace ++ [Event.request params]
          match w.second params with
          | .error err => ⟨trace, .panicked (.roundTrip err)⟩
          | .ok completion =>
            match completion.Choices with
            | [] => ⟨trace, .panicked .indexOutOfRange⟩
            | choice :: _ => ⟨trace ++ [Event.stderr (choice.Message.Content ++ "\n")], .returned⟩

/-- The requests a run sent, in order. -/
def requests : List Event → List ChatCompletionNewParams
  | [] => []
  | .request p :: rest => p :: requests rest
  | _ :: rest => requests rest

/-- The tool-result messages of a message list, as pairs of content and tool
call identifier, in order. -/
def toolResults : List MessageParam → List (String × String)
  | [] => []
  | .ToolMessage content id :: rest => (content, id) :: toolResults rest
  | _ :: rest => toolResults rest


/-! ## Notions the properties are stated with -/

/-- Equality of two strings when letter case is ignored: the two agree once
every ASCII capital is replaced by its small letter. Compared with a word of
ASCII letters other than `k` and `s`, this is also equality under Unicode
simple case folding, which relates such a letter to its other case only. -/
def EqIgnoreCase (s t : String) : Prop := s.data.map Char.toLower = t.data.map Char.toLower

instance (s t : String) : Decidable (EqIgnoreCase s t) :=
  inferInstanceAs (Decidable (s.data.map Char.toLower = t.data.map Char.toLower))

/-- The string with every U+0130 (capital I with dot above) read as `I`. -/
def readDottedI (s : String) : String :=
  String.mk (s.data.map fun c => if c.toNat = 0x130 then 'I' else c)

/-- Every rune of the range has a lower-case form that is a code point above
ASCII. -/
def CaseRange.aboveASCII (cr : CaseRange) : Bool :=
  if cr.Delta > (MaxRune : Int) then decide (0x80 ≤ cr.Lo ∧ cr.Hi + 1 < 0xD800)
  else decide (0x80 ≤ cr.Lo + cr.Delta ∧ (cr.Hi + cr.Delta < 0xD800
    ∨ (0xE000 ≤ cr.Lo + cr.Delta ∧ cr.Hi + cr.Delta ≤ 0x10FFFF)))

/-- The range is the single rune `r`. -/
def CaseRange.single (cr : CaseRange) (r : Nat) : Bool := decide (cr.Lo = r ∧ cr.Hi = r)

deriving instance DecidableEq for Except

/-- The tool call has one of the two names the loop answers. -/
def ToolCall.named (toolCall : ToolCall) : Bool :=
  decide (toolCall.Function.Name = "get_weather" ∨ toolCall.Function.Name = "get_humidity")

/-- The arguments string decodes to a JSON object. -/
def decodesToObject (arguments : String) : Bool :=
  match Unmarshal arguments with
  | .ok (some _) => true
  | _ => false

/-- The arguments string is one `json.Unmarshal` returns an error for. -/
def decodeFails (arguments : String) : Bool :=
  match Unmarshal arguments with
  | .error _ => true
  | .ok _ => false

/-- The string under "location" of the object the arguments string decodes to,
when it decodes to an object that has a string there. -/
def decodedLocation (arguments : String) : Option String :=
  match Unmarshal arguments with
  | .ok args => assertString (mapIndex args "location")
  | .error _ => none

/-- The tool-result message of a tool call: the looked-up value for the decoded
location, tagged with the identifier of the call. -/
def toolResult (toolCall : ToolCall) : MessageParam :=
  let location := (decodedLocation toolCall.Function.Arguments).getD ""
  .ToolMessage
    (if toolCall.Function.Name = "get_weather" then getWeather location else getHumidity location)
    toolCall.ID

/-- The conversation after the first response: the first request's messages and
the assistant message of the response. -/
def withAssistant (w : World) (message : ChatCompletionMessage) : ChatCompletionNewParams :=
  { firstParams (userInput w) with
    Messages := (firstParams (userInput w)).Messages ++ [.AssistantMessage message] }

/-- A world whose first response is the given message and whose second response
is the text "done". -/
def worldOf (message : ChatCompletionMessage) : World :=
  { dotenvFailed := false, stdin := "weather in Delhi?\n", first := .ok ⟨[⟨message⟩]⟩,
    second := fun _ => .ok ⟨[⟨⟨"done", []⟩⟩]⟩ }

/-- A call of `get_weather` for Patiala. -/
def callWeather : ToolCall := ⟨"call_1", ⟨"get_weather", "\x7b\"location\":\"Patiala\"\x7d"⟩⟩

/-- A call of `get_humidity` for Nainital. -/
def callHumidity : ToolCall := ⟨"call_2", ⟨"get_humidity", "\x7b\"location\":\"NAINITAL\"\x7d"⟩⟩

/-- A call of a function the program does not know, with well-formed arguments. -/
def callOther : ToolCall := ⟨"call_3", ⟨"get_time", "\x7b\"location\":\"Delhi\"\x7d"⟩⟩

/-- A call whose function name differs from `get_weather` in letter case. -/
def callCased : ToolCall := ⟨"call_4", ⟨"Get_Weather", "\x7b\"location\":\"Delhi\"\x7d"⟩⟩

/-- A call of an unknown function whose arguments are the empty object. -/
def callOtherEmpty : ToolCall := ⟨"call_5", ⟨"get_time", "\x7b\x7d"⟩⟩

/-- A call of an unknown function whose arguments are `null`. -/
def callOtherNull : ToolCall := ⟨"call_6", ⟨"get_time", "null"⟩⟩

/-- A call of `get_humidity` whose "location" is a number. -/
def callHumidityNumber : ToolCall := ⟨"call_7", ⟨"get_humidity", "\x7b\"location\":42\x7d"⟩⟩

/-- A call of an unknown function whose arguments break off. -/
def callOtherBroken : ToolCall := ⟨"call_8", ⟨"get_time", "\x7b\"location\":"⟩⟩

/-! ## Lower case -/

theorem toNat_ofNat_of_valid (n : Nat) (h : n.isValidChar) : (Char.ofNat n).toNat = n := by
  simp [Char.ofNat, h, Char.ofNatAux, Char.toNat, UInt32.toNat]

theorem char_eq_of_toNat_eq (a b : Char) (h : a.toNat = b.toNat) : a = b := by
  rw [← Char.ofNat_toNat a, ← Char.ofNat_toNat b, h]

theorem lowerASCII_eq_toLower (c : Char) : lowerASCII c = c.toLower := rfl

theorem lowerASCII_of_not_upper (c : Char) (h : ¬ (65 ≤ c.toNat ∧ c.toNat ≤ 90)) :
    lowerASCII c = c := by
  simp [lowerASCII, h]

theorem toNat_lowerASCII_of_upper (c : Char) (h : 65 ≤ c.toNat ∧ c.toNat ≤ 90) :
    (lowerASCII c).toNat = c.toNat + 32 := by
  have hv : (c.toNat + 32).isValidChar := by
    left
    omega
  simp [lowerASCII, h, toNat_ofNat_of_valid _ hv]

theorem lowerASCII_idem (c : Char) : lowerASCII (lowerASCII c) = lowerASCII c := by
  by_cases h : 65 ≤ c.toNat ∧ c.toNat ≤ 90
  · apply lowerASCII_of_not_upper
    rw [toNat_lowerASCII_of_upper c h]
    omega
  · rw [lowerASCII_of_not_upper c h, lowerASCII_of_not_upper c h]

theorem toNat_lowerASCII_lt (c : Char) (h : c.toNat < 0x80) : (lowerASCII c).toNat < 0x80 := by
  by_cases hu : 65 ≤ c.toNat ∧ c.toNat ≤ 90
  · rw [toNat_lowerASCII_of_upper c hu]
    omega
  · rw [lowerASCII_of_not_upper c hu]
    exact h

theorem caseRanges_checked :
    caseRanges.all (fun cr => cr.aboveASCII || cr.single 0x130 || cr.single 0x212A) = true := by
  decide

/-- A rune above ASCII other than U+0130 and U+212A has a lower-case form above
ASCII, in any table whose other ranges stay above ASCII. -/
theorem unicodeTo_aboveASCII (l : List CaseRange)
    (hl : ∀ cr ∈ l, (cr.aboveASCII || cr.single 0x130 || cr.single 0x212A) = true)
    (r : Nat) (hr : 0x80 ≤ r) (hv : r.isValidChar) (h1 : r ≠ 0x130) (h2 : r ≠ 0x212A) :
    0x80 ≤ unicodeTo r l ∧ (unicodeTo r l).isValidChar := by
  induction l with
  | nil => exact ⟨hr, hv⟩
  | cons cr rest ih =>
    have hrest : ∀ c ∈ rest, (c.aboveASCII || c.single 0x130 || c.single 0x212A) = true :=
      fun c hc => hl c (List.mem_cons_of_mem _ hc)
    have hcr := hl cr (List.mem_cons_self _ _)
    unfold unicodeTo
    by_cases hin : cr.Lo ≤ r ∧ r ≤ cr.Hi
    · rw [if_pos hin]
      simp only [Bool.or_eq_true, CaseRange.single, decide_eq_true_eq] at hcr
      rcases hcr with (hsafe | hs) | hs
      · unfold CaseRange.aboveASCII at hsafe
        by_cases hd : cr.Delta > (MaxRune : Int)
        · rw [if_pos hd] at hsafe ⊢
          simp only [decide_eq_true_eq] at hsafe
          unfold Nat.isValidChar
          omega
        · rw [if_neg hd] at hsafe ⊢
          simp only [decide_eq_true_eq] at hsafe
          unfold Nat.isValidChar
          omega
      · omega
      · omega
    · rw [if_neg hin]
      exact ih hrest

theorem toNat_unicodeToLower_ge (c : Char) (hc : 0x80 ≤ c.toNat) (h1 : c.toNat ≠ 0x130)
    (h2 : c.toNat ≠ 0x212A) : 0x80 ≤ (unicodeToLower c).toNat := by
  have h := unicodeTo_aboveASCII caseRanges (List.all_eq_true.mp caseRanges_checked) c.toNat hc
    c.valid h1 h2
  have hn : ¬ c.toNat ≤ 0x7F := by omega
  unfold unicodeToLower
  rw [if_neg hn, toNat_ofNat_of_valid _ h.2]
  exact h.1

theorem unicodeToLower_of_ascii (c : Char) (hc : c.toNat < 0x80) :
    unicodeToLower c = lowerASCII c := by
  have h : c.toNat ≤ 0x7F := by omega
  simp [unicodeToLower, h]

theorem map_eq_self_of_forall {f : Char → Char} (l : List Char) (h : ∀ a ∈ l, f a = a) :
    l.map f = l := by
  induction l with
  | nil => rfl
  | cons a rest ih =>
    rw [List.map_cons, h a (List.mem_cons_self _ _),
      ih fun b hb => h b (List.mem_cons_of_mem _ hb)]

theorem map_eq_map_of_forall {f g : Char → Char} (l : List Char) (h : ∀ a ∈ l, f a = g a) :
    l.map f = l.map g := by
  induction l with
  | nil => rfl
  | cons a rest ih =>
    rw [List.map_cons, List.map_cons, h a (List.mem_cons_self _ _),
      ih fun b hb => h b (List.mem_cons_of_mem _ hb)]

/-- The three branches of `strings.ToLower`. -/
theorem ToLower_cases (s : String) :
    ((∀ a ∈ s.data, a.toNat < 0x80) ∧ (∀ a ∈ s.data, ¬ (65 ≤ a.toNat ∧ a.toNat ≤ 90))
        ∧ ToLower s = s)
      ∨ ((∀ a ∈ s.data, a.toNat < 0x80) ∧ ToLower s = String.mk (s.data.map lowerASCII))
      ∨ ToLower s = String.mk (s.data.map unicodeToLower) := by
  unfold ToLower
  by_cases h1 : (s.data.all fun c => decide (c.toNat < 0x80)) = true
  · have ha : ∀ a ∈ s.data, a.toNat < 0x80 := by
      intro a m
      simpa using List.all_eq_true.mp h1 a m
    by_cases h2 : (s.data.any fun c => decide (65 ≤ c.toNat ∧ c.toNat ≤ 90)) = true
    · right
      left
      refine ⟨ha, ?_⟩
      simp only [h1, h2, if_true, Bool.not_true]
      rfl
    · left
      refine ⟨ha, ?_, ?_⟩
      · intro a m hu
        apply h2
        exact List.any_eq_true.mpr ⟨a, m, by simpa using hu⟩
      · have h3 : (s.data.any fun c => decide (65 ≤ c.toNat ∧ c.toNat ≤ 90)) = false := by
          simpa using h2
        simp only [h1, h3, if_true, Bool.not_false]
  · right
    right
    have h3 : (s.data.all fun c => decide (c.toNat < 0x80)) = false := by
      simpa using h1
    simp only [h3]
    rfl

/-- A spelling of a lower-case ASCII word, in any mix of cases, is lowered to
the word. -/
theorem ToLower_of_eqIgnoreCase (s t : String)
    (ht : ∀ b ∈ t.data, b.toNat < 0x80 ∧ b.toLower = b) (h : EqIgnoreCase s t) :
    ToLower s = t := by
  have htl : t.data.map Char.toLower = t.data :=
    map_eq_self_of_forall t.data fun b hb => (ht b hb).2
  have h1 : s.data.map Char.toLower = t.data := Eq.trans h htl
  have hascii : ∀ a ∈ s.data, a.toNat < 0x80 := by
    intro a ha
    have hm : a.toLower ∈ t.data := h1 ▸ List.mem_map_of_mem _ ha
    by_contra hge
    have hid : a.toLower = a := lowerASCII_of_not_upper a (by omega)
    rw [hid] at hm
    exact hge (ht a hm).1
  rcases ToLower_cases s with ⟨_, hup, he⟩ | ⟨_, he⟩ | he
  · rw [he]
    apply String.ext
    rw [← h1]
    exact (map_eq_self_of_forall s.data fun a ha => lowerASCII_of_not_upper a (hup a ha)).symm
  · rw [he]
    apply String.ext
    exact h1
  · rw [he]
    apply String.ext
    rw [← h1]
    exact map_eq_map_of_forall s.data fun a ha => unicodeToLower_of_ascii a (hascii a ha)

/-- A string that is lowered to an ASCII word without `k` is a spelling of the
word in some mix of cases, once U+0130 is read as `I`. -/
theorem eqIgnoreCase_of_ToLower (s t : String)
    (ht : ∀ b ∈ t.data, b.toNat < 0x80 ∧ b ≠ 'k') (h : ToLower s = t) :
    EqIgnoreCase (readDottedI s) t := by
  have hread : ∀ a : Char, a.toNat < 0x80 → (if a.toNat = 0x130 then 'I' else a) = a := by
    intro a ha
    rw [if_neg (by omega)]
  have key : ∀ a ∈ s.data, (∃ b ∈ t.data, unicodeToLower a = b) →
      Char.toLower (if a.toNat = 0x130 then 'I' else a) = Char.toLower (unicodeToLower a) := by
    intro a _ hb
    obtain ⟨b, hb, hab⟩ := hb
    by_cases ha : a.toNat < 0x80
    · rw [hread a ha, unicodeToLower_of_ascii a ha]
      exact (lowerASCII_idem a).symm
    · by_cases h1 : a.toNat = 0x130
      · have : a = Char.ofNat 0x130 := char_eq_of_toNat_eq _ _ (by rw [h1]; decide)
        subst this
        decide
      · by_cases h2 : a.toNat = 0x212A
        · have : a = Char.ofNat 0x212A := char_eq_of_toNat_eq _ _ (by rw [h2]; decide)
          subst this
          have hk : b = 'k' := by
            rw [← hab]
            decide
          exact absurd hk (ht b hb).2
        · have hge := toNat_unicodeToLower_ge a (by omega) h1 h2
          rw [hab] at hge
          have := (ht b hb).1
          omega
  unfold EqIgnoreCase readDottedI
  rcases ToLower_cases s with ⟨hascii, _, he⟩ | ⟨hascii, he⟩ | he
  · rw [he] at h
    subst h
    rw [map_eq_self_of_forall s.data fun a ha => hread a (hascii a ha)]
  · rw [he] at h
    subst h
    rw [map_eq_self_of_forall s.data fun a ha => hread a (hascii a ha), List.map_map]
    exact map_eq_map_of_forall s.data fun a _ => (lowerASCII_idem a).symm
  · rw [he] at h
    subst h
    rw [List.map_map, List.map_map]
    apply map_eq_map_of_forall
    intro a ha
    exact key a ha ⟨unicodeToLower a, List.mem_map_of_mem _ ha, rfl⟩

/-! ## The lookup tables -/

/-- C1. Every spelling of "patiala", "delhi", "nainital" or "dehradun", in any
mix of upper and lower case, is looked up to the fixed weather value ("10°C",
"14°C", "5°C", "12°C") and the fixed humidity value ("40%", "55%", "70%",
"60%") of that city. -/
theorem lookup_known_city (s : String) :
    (EqIgnoreCase s "patiala" → getWeather s = "10°C" ∧ getHumidity s = "40%")
      ∧ (EqIgnoreCase s "delhi" → getWeather s = "14°C" ∧ getHumidity s = "55%")
      ∧ (EqIgnoreCase s "nainital" → getWeather s = "5°C" ∧ getHumidity s = "70%")
      ∧ (EqIgnoreCase s "dehradun" → getWeather s = "12°C" ∧ getHumidity s = "60%") := by
  refine ⟨fun h => ?_, fun h => ?_, fun h => ?_, fun h => ?_⟩
  · have e := ToLower_of_eqIgnoreCase s "patiala" (by decide) h
    simp only [getWeather, getHumidity, e]
    decide
  · have e := ToLower_of_eqIgnoreCase s "delhi" (by decide) h
    simp only [getWeather, getHumidity, e]
    decide
  · have e := ToLower_of_eqIgnoreCase s "nainital" (by decide) h
    simp only [getWeather, getHumidity, e]
    decide
  · have e := ToLower_of_eqIgnoreCase s "dehradun" (by decide) h
    simp only [getWeather, getHumidity, e]
    decide

/-- C1, at the spellings the specification names: `getWeather("Delhi")` is
"14°C" and `getHumidity("NAINITAL")` is "70%". -/
theorem lookup_known_city_witness :
    EqIgnoreCase "Delhi" "delhi" ∧ EqIgnoreCase "NAINITAL" "nainital"
      ∧ getWeather "Delhi" = "14°C" ∧ getHumidity "NAINITAL" = "70%" :=
  ⟨by decide, by decide, ((lookup_known_city "Delhi").2.1 (by decide)).1,
    ((lookup_known_city "NAINITAL").2.2.1 (by decide)).2⟩

/-- C4 as stated fails: "DELHİ", written with U+0130, equals none of the four
names when letter case is ignored, and is looked up to the values of Delhi. -/
theorem lookup_dotted_capital_I :
    ¬ EqIgnoreCase "DELHİ" "patiala" ∧ ¬ EqIgnoreCase "DELHİ" "delhi"
      ∧ ¬ EqIgnoreCase "DELHİ" "nainital" ∧ ¬ EqIgnoreCase "DELHİ" "dehradun"
      ∧ getWeather "DELHİ" = "14°C" ∧ getHumidity "DELHİ" = "55%" := by
  decide

/-- C4, amended. A string that equals none of "patiala", "delhi", "nainital",
"dehradun" when letter case is ignored, also not with every U+0130 read as `I`,
is looked up to "Unknown" by both functions. -/
theorem lookup_unknown_city (s : String)
    (h1 : ¬ EqIgnoreCase (readDottedI s) "patiala") (h2 : ¬ EqIgnoreCase (readDottedI s) "delhi")
    (h3 : ¬ EqIgnoreCase (readDottedI s) "nainital")
    (h4 : ¬ EqIgnoreCase (readDottedI s) "dehradun") :
    getWeather s = "Unknown" ∧ getHumidity s = "Unknown" := by
  have n1 : ¬ ToLower s = "patiala" := fun e => h1 (eqIgnoreCase_of_ToLower s _ (by decide) e)
  have n2 : ¬ ToLower s = "delhi" := fun e => h2 (eqIgnoreCase_of_ToLower s _ (by decide) e)
  have n3 : ¬ ToLower s = "nainital" := fun e => h3 (eqIgnoreCase_of_ToLower s _ (by decide) e)
  have n4 : ¬ ToLower s = "dehradun" := fun e => h4 (eqIgnoreCase_of_ToLower s _ (by decide) e)
  simp only [getWeather, getHumidity, n1, n2, n3, n4, if_false, and_self]

/-- C4, amended, at the empty string, a name with surrounding white space and a
name with a letter outside ASCII. -/
theorem lookup_unknown_city_witness :
    (getWeather "" = "Unknown" ∧ getHumidity "" = "Unknown")
      ∧ (getWeather " delhi " = "Unknown" ∧ getHumidity " delhi " = "Unknown")
      ∧ (getWeather "délhi" = "Unknown" ∧ getHumidity "délhi" = "Unknown") :=
  ⟨lookup_unknown_city "" (by decide) (by decide) (by decide) (by decide),
    lookup_unknown_city " delhi " (by decide) (by decide) (by decide) (by decide),
    lookup_unknown_city "délhi" (by decide) (by decide) (by decide) (by decide)⟩

/-- C10. The two lookup tables know the same cities: `getWeather` gives
"Unknown" exactly when `getHumidity` does. -/
theorem unknown_weather_iff_unknown_humidity (s : String) :
    getWeather s = "Unknown" ↔ getHumidity s = "Unknown" := by
  unfold getWeather getHumidity
  simp only []
  split_ifs <;> decide

/-! ## The loop over the tool calls -/

/-- The loop body, by cases: a decoding error aborts; a call with one of the two
names aborts when "location" is not a string and appends its result otherwise;
any other call leaves the conversation as it is. -/
theorem resolveToolCall_eq (params : ChatCompletionNewParams) (toolCall : ToolCall) :
    resolveToolCall params toolCall =
      match Unmarshal toolCall.Function.Arguments with
      | .error err => .error (.unmarshal err)
      | .ok args =>
        if toolCall.named then
          match assertString (mapIndex args "location") with
          | none => .error .typeAssertion
          | some location =>
            .ok { params with Messages := params.Messages ++ [.ToolMessage
              (if toolCall.Function.Name = "get_weather" then getWeather location
                else getHumidity location) toolCall.ID] }
        else .ok params := by
  unfold resolveToolCall ToolCall.named
  cases Unmarshal toolCall.Function.Arguments with
  | error err => rfl
  | ok args =>
    by_cases hw : toolCall.Function.Name = "get_weather"
    · have hh : ¬ toolCall.Function.Name = "get_humidity" := by
        rw [hw]
        decide
      cases hl : assertString (mapIndex args "location") <;> simp [hw, hl]
    · by_cases hh : toolCall.Function.Name = "get_humidity"
      · cases hl : assertString (mapIndex args "location") <;> simp [hw, hh, hl]
      · simp [hw, hh]

theorem resolveToolCall_of_ok (params result : ChatCompletionNewParams) (toolCall : ToolCall)
    (h : resolveToolCall params toolCall = .ok result) :
    result = { params with Messages := params.Messages
      ++ (if toolCall.named then [toolResult toolCall] else []) } := by
  rw [resolveToolCall_eq] at h
  unfold toolResult decodedLocation
  cases hU : Unmarshal toolCall.Function.Arguments with
  | error err =>
    rw [hU] at h
    cases h
  | ok args =>
    rw [hU] at h
    by_cases hn : toolCall.named = true
    · cases hl : assertString (mapIndex args "location") with
      | none =>
        simp [hn, hl] at h
      | some location =>
        simp only [hn, hl, if_true] at h
        injection h with h
        rw [← h]
        simp [hn, hl]
    · simp only [hn] at h
      injection h with h
      rw [← h]
      simp [hn]

theorem resolveToolCalls_of_ok (toolCalls : List ToolCall) :
    ∀ params result : ChatCompletionNewParams, resolveToolCalls toolCalls params = .ok result →
      result = { params with Messages := params.Messages
        ++ (toolCalls.filter ToolCall.named).map toolResult } := by
  induction toolCalls with
  | nil =>
    intro params result h
    simp only [resolveToolCalls] at h
    injection h with h
    rw [← h]
    simp
  | cons toolCall rest ih =>
    intro params result h
    unfold resolveToolCalls at h
    cases hs : resolveToolCall params toolCall with
    | error p =>
      rw [hs] at h
      cases h
    | ok mid =>
      rw [hs] at h
      have h1 := resolveToolCall_of_ok params mid toolCall hs
      have h2 := ih mid result h
      rw [h2, h1]
      by_cases hn : toolCall.named = true <;> simp [List.filter_cons, hn]

theorem resolveToolCalls_error_of_mem (toolCalls : List ToolCall) (toolCall : ToolCall)
    (hm : toolCall ∈ toolCalls)
    (hf : ∀ params, ∃ p, resolveToolCall params toolCall = .error p) :
    ∀ params, ∃ p, resolveToolCalls toolCalls params = .error p := by
  induction toolCalls with
  | nil => cases hm
  | cons first rest ih =>
    intro params
    unfold resolveToolCalls
    cases hs : resolveToolCall params first with
    | error p => exact ⟨p, rfl⟩
    | ok mid =>
      rcases List.mem_cons.mp hm with he | hr
      · obtain ⟨p, hp⟩ := hf params
        rw [he, hs] at hp
        cases hp
      · exact ih hr mid

theorem resolveToolCalls_ok_of_forall (toolCalls : List ToolCall)
    (hf : ∀ toolCall ∈ toolCalls, ∀ params, ∃ result, resolveToolCall params toolCall = .ok result) :
    ∀ params, ∃ result, resolveToolCalls toolCalls params = .ok result := by
  induction toolCalls with
  | nil => exact fun params => ⟨params, rfl⟩
  | cons first rest ih =>
    intro params
    unfold resolveToolCalls
    obtain ⟨mid, hmid⟩ := hf first (List.mem_cons_self _ _) params
    rw [hmid]
    exact ih (fun toolCall hm => hf toolCall (List.mem_cons_of_mem _ hm)) mid

/-! ## The run -/

theorem requests_append (a b : List Event) : requests (a ++ b) = requests a ++ requests b := by
  induction a with
  | nil => rfl
  | cons e rest ih =>
    cases e <;> simp [requests, ih]

theorem requests_prologue (w : World) : requests (prologue w) = [] := by
  unfold prologue
  cases w.dotenvFailed <;> rfl

theorem main_of_no_toolCalls (w : World) (completion : ChatCompletion) (choice : Choice)
    (rest : List Choice) (h1 : w.first = .ok completion) (h2 : completion.Choices = choice :: rest)
    (h3 : choice.Message.ToolCalls = []) :
    main w = ⟨prologue w ++ [Event.request (firstParams (userInput w)),
      Event.stdout "No function call"], .returned⟩ := by
  unfold main
  simp [h1, h2, h3]

theorem main_of_resolve_error (w : World) (completion : ChatCompletion) (choice : Choice)
    (rest : List Choice) (h1 : w.first = .ok completion) (h2 : completion.Choices = choice :: rest)
    (h3 : choice.Message.ToolCalls ≠ []) (p : Panic)
    (h4 : resolveToolCalls choice.Message.ToolCalls (withAssistant w choice.Message) = .error p) :
    main w = ⟨prologue w ++ [Event.request (firstParams (userInput w))], .panicked p⟩ := by
  unfold withAssistant at h4
  unfold main
  simp [h1, h2, h3, h4]

theorem requests_main_of_resolve_ok (w : World) (completion : ChatCompletion) (choice : Choice)
    (rest : List Choice) (h1 : w.first = .ok completion) (h2 : completion.Choices = choice :: rest)
    (h3 : choice.Message.ToolCalls ≠ []) (params : ChatCompletionNewParams)
    (h4 : resolveToolCalls choice.Message.ToolCalls (withAssistant w choice.Message) = .ok params) :
    requests (main w).trace = [firstParams (userInput w), params] := by
  unfold withAssistant at h4
  unfold main
  simp only [h1, h2, h3, h4, List.length_eq_zero, if_false]
  cases w.second params with
  | error err => simp [requests_append, requests_prologue, requests]
  | ok second =>
    cases hc : second.Choices <;> simp [hc, requests_append, requests_prologue, requests]

/-- The requests of a run: the first one alone, or the first one and the
conversation the loop has built from the tool calls of the first response. -/
theorem requests_main (w : World) :
    requests (main w).trace = [firstParams (userInput w)]
      ∨ ∃ completion choice rest params, w.first = .ok completion
          ∧ completion.Choices = choice :: rest ∧ choice.Message.ToolCalls ≠ []
          ∧ resolveToolCalls choice.Message.ToolCalls (withAssistant w choice.Message) = .ok params
          ∧ requests (main w).trace = [firstParams (userInput w), params] := by
  cases h1 : w.first with
  | error err =>
    left
    unfold main
    simp [h1, requests_append, requests_prologue, requests]
  | ok completion =>
    cases h2 : completion.Choices with
    | nil =>
      left
      unfold main
      simp [h1, h2, requests_append, requests_prologue, requests]
    | cons choice rest =>
      by_cases h3 : choice.Message.ToolCalls = []
      · left
        rw [main_of_no_toolCalls w completion choice rest h1 h2 h3]
        simp [requests_append, requests_prologue, requests]
      · cases h4 : resolveToolCalls choice.Message.ToolCalls (withAssistant w choice.Message) with
        | error p =>
          left
          rw [main_of_resolve_error w completion choice rest h1 h2 h3 p h4]
          simp [requests_append, requests_prologue, requests]
        | ok params =>
          right
          exact ⟨completion, choice, rest, params, rfl, h2, h3, h4,
            requests_main_of_resolve_ok w completion choice rest h1 h2 h3 params h4⟩

theorem toolResults_append (a b : List MessageParam) :
    toolResults (a ++ b) = toolResults a ++ toolResults b := by
  induction a with
  | nil => rfl
  | cons m rest ih =>
    cases m <;> simp [toolResults, ih]

theorem toolResults_map_toolResult (toolCalls : List ToolCall) :
    (toolResults (toolCalls.map toolResult)).map Prod.snd = toolCalls.map ToolCall.ID := by
  induction toolCalls with
  | nil => rfl
  | cons toolCall rest ih => simp [toolResult, toolResults, ih]

theorem resolveToolCall_error_of_decodeFails (toolCall : ToolCall)
    (hf : decodeFails toolCall.Function.Arguments = true) (params : ChatCompletionNewParams) :
    ∃ p, resolveToolCall params toolCall = .error p := by
  rw [resolveToolCall_eq]
  unfold decodeFails at hf
  cases hU : Unmarshal toolCall.Function.Arguments with
  | error err => exact ⟨_, rfl⟩
  | ok args => simp [hU] at hf

theorem resolveToolCall_typeAssertion (toolCall : ToolCall) (hn : toolCall.named = true)
    (hd : decodeFails toolCall.Function.Arguments = false)
    (hl : decodedLocation toolCall.Function.Arguments = none) (params : ChatCompletionNewParams) :
    resolveToolCall params toolCall = .error .typeAssertion := by
  rw [resolveToolCall_eq]
  unfold decodeFails at hd
  unfold decodedLocation at hl
  cases hU : Unmarshal toolCall.Function.Arguments with
  | error err => simp [hU] at hd
  | ok args =>
    simp only [hU] at hl
    simp [hn, hl]

theorem decodeFails_of_decodesToObject (arguments : String)
    (h : decodesToObject arguments = true) : decodeFails arguments = false := by
  unfold decodesToObject at h
  unfold decodeFails
  cases hU : Unmarshal arguments with
  | error err => simp [hU] at h
  | ok args => rfl

theorem resolveToolCall_ok_of_location (toolCall : ToolCall) (location : String)
    (hl : decodedLocation toolCall.Function.Arguments = some location)
    (params : ChatCompletionNewParams) :
    resolveToolCall params toolCall = .ok (if toolCall.named then
      { params with Messages := params.Messages ++ [.ToolMessage
        (if toolCall.Function.Name = "get_weather" then getWeather location
          else getHumidity location) toolCall.ID] } else params) := by
  rw [resolveToolCall_eq]
  unfold decodedLocation at hl
  cases hU : Unmarshal toolCall.Function.Arguments with
  | error err => simp [hU] at hl
  | ok args =>
    simp only [hU] at hl
    by_cases hn : toolCall.named = true <;> simp [hn, hl]

/-! ## The properties of the resolution round trip -/

/-- C2 as stated fails: the response holds one tool call with well-formed
arguments, named `get_time`; the second request is sent, and it carries no
tool-result message. -/
theorem unknown_name_gets_no_result :
    decodedLocation callOther.Function.Arguments = some "Delhi"
      ∧ (requests (main (worldOf ⟨"", [callOther]⟩)).trace).map
          (fun p => toolResults p.Messages) = [[], []] := by
  decide

/-- C2, amended. When the response holds N ≥ 1 tool calls, each named
`get_weather` or `get_humidity` and each with arguments that decode to an
object with a string "location", the second request is sent and its messages
are those of the conversation after the first response followed by exactly N
tool-result messages, the i-th of them carrying the identifier of the i-th
call; when the identifiers of the calls are distinct, each is carried by exactly
one of them. -/
theorem named_calls_get_one_result_each (w : World) (completion : ChatCompletion)
    (choice : Choice) (rest : List Choice) (h1 : w.first = .ok completion)
    (h2 : completion.Choices = choice :: rest) (h3 : choice.Message.ToolCalls ≠ [])
    (h4 : ∀ toolCall ∈ choice.Message.ToolCalls, toolCall.named = true
      ∧ (decodedLocation toolCall.Function.Arguments).isSome = true) :
    ∃ params tools, requests (main w).trace = [firstParams (userInput w), params]
      ∧ params.Messages = (withAssistant w choice.Message).Messages ++ tools
      ∧ tools.length = choice.Message.ToolCalls.length
      ∧ toolResults (withAssistant w choice.Message).Messages = []
      ∧ (toolResults tools).map Prod.snd = choice.Message.ToolCalls.map ToolCall.ID
      ∧ ((choice.Message.ToolCalls.map ToolCall.ID).Nodup →
          ∀ toolCall ∈ choice.Message.ToolCalls,
            ((toolResults tools).map Prod.snd).count toolCall.ID = 1) := by
  have hok : ∀ toolCall ∈ choice.Message.ToolCalls, ∀ params,
      ∃ result, resolveToolCall params toolCall = .ok result := by
    intro toolCall hm params
    obtain ⟨location, hl⟩ := Option.isSome_iff_exists.mp (h4 toolCall hm).2
    exact ⟨_, resolveToolCall_ok_of_location toolCall location hl params⟩
  obtain ⟨params, hp⟩ :=
    resolveToolCalls_ok_of_forall choice.Message.ToolCalls hok (withAssistant w choice.Message)
  have hshape := resolveToolCalls_of_ok _ _ _ hp
  have hall : choice.Message.ToolCalls.filter ToolCall.named = choice.Message.ToolCalls :=
    List.filter_eq_self.mpr fun toolCall hm => (h4 toolCall hm).1
  rw [hall] at hshape
  refine ⟨params, choice.Message.ToolCalls.map toolResult,
    requests_main_of_resolve_ok w completion choice rest h1 h2 h3 params hp, ?_, ?_, ?_, ?_, ?_⟩
  · rw [hshape]
  · simp
  · simp [withAssistant, firstParams, toolResults]
  · exact toolResults_map_toolResult _
  · intro hnd toolCall hm
    rw [toolResults_map_toolResult]
    exact List.count_eq_one_of_mem hnd (List.mem_map_of_mem _ hm)

/-- C2, amended, at a response with a `get_weather` and a `get_humidity` call. -/
theorem named_calls_get_one_result_each_witness :
    ∃ params tools,
      requests (main (worldOf ⟨"", [callWeather, callHumidity]⟩)).trace
          = [firstParams (userInput (worldOf ⟨"", [callWeather, callHumidity]⟩)), params]
        ∧ params.Messages
          = (withAssistant (worldOf ⟨"", [callWeather, callHumidity]⟩)
              ⟨"", [callWeather, callHumidity]⟩).Messages ++ tools
        ∧ tools.length = 2
        ∧ toolResults (withAssistant (worldOf ⟨"", [callWeather, callHumidity]⟩)
            ⟨"", [callWeather, callHumidity]⟩).Messages = []
        ∧ (toolResults tools).map Prod.snd = ["call_1", "call_2"]
        ∧ (["call_1", "call_2"].Nodup →
            ∀ toolCall ∈ [callWeather, callHumidity],
              ((toolResults tools).map Prod.snd).count toolCall.ID = 1) :=
  named_calls_get_one_result_each (worldOf ⟨"", [callWeather, callHumidity]⟩)
    ⟨[⟨⟨"", [callWeather, callHumidity]⟩⟩]⟩ ⟨⟨"", [callWeather, callHumidity]⟩⟩ [] rfl rfl
    (by decide) (by decide)

/-- C3 as stated fails: the arguments of the one tool call decode to an object
without a "location" key, the call is named `get_time`, and the program sends
the second request and returns. -/
theorem unknown_name_without_location_not_fatal :
    decodesToObject callOtherEmpty.Function.Arguments = true
      ∧ decodedLocation callOtherEmpty.Function.Arguments = none
      ∧ (main (worldOf ⟨"", [callOtherEmpty]⟩)).exit = .returned
      ∧ (requests (main (worldOf ⟨"", [callOtherEmpty]⟩)).trace).length = 2 := by
  decide

/-- C3, amended. A tool call named `get_weather` or `get_humidity` whose
arguments decode to an object without a string under "location" (no such key,
or a value that is not a string) fails the type assertion; when the response
holds such a call, the program terminates fatally and only the first request
is sent. -/
theorem named_call_without_location_fatal (w : World) (completion : ChatCompletion)
    (choice : Choice) (rest : List Choice) (toolCall : ToolCall) (h1 : w.first = .ok completion)
    (h2 : completion.Choices = choice :: rest) (hm : toolCall ∈ choice.Message.ToolCalls)
    (hn : toolCall.named = true) (ho : decodesToObject toolCall.Function.Arguments = true)
    (hl : decodedLocation toolCall.Function.Arguments = none) :
    (∀ params, resolveToolCall params toolCall = .error .typeAssertion)
      ∧ (∃ p, (main w).exit = .panicked p)
      ∧ requests (main w).trace = [firstParams (userInput w)] := by
  have hstep := resolveToolCall_typeAssertion toolCall hn
    (decodeFails_of_decodesToObject _ ho) hl
  obtain ⟨p, hp⟩ := resolveToolCalls_error_of_mem choice.Message.ToolCalls toolCall hm
    (fun params => ⟨_, hstep params⟩) (withAssistant w choice.Message)
  have h3 : choice.Message.ToolCalls ≠ [] := List.ne_nil_of_mem hm
  rw [main_of_resolve_error w completion choice rest h1 h2 h3 p hp]
  exact ⟨hstep, ⟨p, rfl⟩, by simp [requests_append, requests_prologue, requests]⟩

/-- C3, amended, at a response whose second call is a `get_humidity` call with a
number under "location". -/
theorem named_call_without_location_fatal_witness :
    (∀ params, resolveToolCall params callHumidityNumber = .error .typeAssertion)
      ∧ (∃ p, (main (worldOf ⟨"", [callWeather, callHumidityNumber]⟩)).exit = .panicked p)
      ∧ requests (main (worldOf ⟨"", [callWeather, callHumidityNumber]⟩)).trace
          = [firstParams (userInput (worldOf ⟨"", [callWeather, callHumidityNumber]⟩))] :=
  named_call_without_location_fatal (worldOf ⟨"", [callWeather, callHumidityNumber]⟩)
    ⟨[⟨⟨"", [callWeather, callHumidityNumber]⟩⟩]⟩ ⟨⟨"", [callWeather, callHumidityNumber]⟩⟩ []
    callHumidityNumber rfl rfl (by decide) (by decide) (by decide!) (by decide!)

/-- C5 as stated fails: the arguments `null` are not JSON for an object, the
call is named `get_time`, and the program sends the second request and
returns. -/
theorem null_arguments_not_fatal :
    decodesToObject callOtherNull.Function.Arguments = false
      ∧ (main (worldOf ⟨"", [callOtherNull]⟩)).exit = .returned
      ∧ (requests (main (worldOf ⟨"", [callOtherNull]⟩)).trace).length = 2 := by
  decide

/-- C5, amended. When the response holds, at any position, a tool call whose
arguments `json.Unmarshal` rejects (a text that is not valid JSON, or a JSON
value that is neither an object nor `null`), or a call named `get_weather` or
`get_humidity` whose arguments are not JSON for an object, the program
terminates fatally and only the first request is sent, whatever the function
name of a rejected call and however many earlier calls were resolved. -/
theorem undecodable_arguments_fatal (w : World) (completion : ChatCompletion)
    (choice : Choice) (rest : List Choice) (toolCall : ToolCall) (h1 : w.first = .ok completion)
    (h2 : completion.Choices = choice :: rest) (hm : toolCall ∈ choice.Message.ToolCalls)
    (hf : decodeFails toolCall.Function.Arguments = true
      ∨ (toolCall.named = true ∧ decodesToObject toolCall.Function.Arguments = false)) :
    (∃ p, (main w).exit = .panicked p)
      ∧ requests (main w).trace = [firstParams (userInput w)] := by
  have hstep : ∀ params, ∃ p, resolveToolCall params toolCall = .error p := by
    intro params
    by_cases hd : decodeFails toolCall.Function.Arguments = true
    · exact resolveToolCall_error_of_decodeFails toolCall hd params
    · rcases hf with hf | ⟨hn, ho⟩
      · exact absurd hf hd
      · refine ⟨_, resolveToolCall_typeAssertion toolCall hn (by simpa using hd) ?_ params⟩
        unfold decodedLocation
        unfold decodesToObject at ho
        cases hU : Unmarshal toolCall.Function.Arguments with
        | error err => rfl
        | ok args =>
          cases args with
          | none => rfl
          | some m => simp [hU] at ho
  obtain ⟨p, hp⟩ := resolveToolCalls_error_of_mem choice.Message.ToolCalls toolCall hm hstep
    (withAssistant w choice.Message)
  have h3 : choice.Message.ToolCalls ≠ [] := List.ne_nil_of_mem hm
  rw [main_of_resolve_error w completion choice rest h1 h2 h3 p hp]
  exact ⟨⟨p, rfl⟩, by simp [requests_append, requests_prologue, requests]⟩

/-- C5, amended, at a response whose third call, of an unknown function, has
arguments that break off, after two calls that are resolved. -/
theorem undecodable_arguments_fatal_witness :
    (∃ p, (main (worldOf ⟨"", [callWeather, callHumidity, callOtherBroken]⟩)).exit = .panicked p)
      ∧ requests (main (worldOf ⟨"", [callWeather, callHumidity, callOtherBroken]⟩)).trace
          = [firstParams (userInput (worldOf ⟨"", [callWeather, callHumidity, callOtherBroken]⟩))] :=
  undecodable_arguments_fatal (worldOf ⟨"", [callWeather, callHumidity, callOtherBroken]⟩)
    ⟨[⟨⟨"", [callWeather, callHumidity, callOtherBroken]⟩⟩]⟩
    ⟨⟨"", [callWeather, callHumidity, callOtherBroken]⟩⟩ [] callOtherBroken rfl rfl (by decide)
    (Or.inl (by decide))

/-- C6. When the first response holds no tool call, the run is the prologue,
the first request and the text "No function call" on standard output, and the
process returns: one request is sent, and it carries no tool-result message. -/
theorem no_tool_calls_run (w : World) (completion : ChatCompletion) (choice : Choice)
    (rest : List Choice) (h1 : w.first = .ok completion) (h2 : completion.Choices = choice :: rest)
    (h3 : choice.Message.ToolCalls.length = 0) :
    main w = ⟨prologue w ++ [Event.request (firstParams (userInput w)),
        Event.stdout "No function call"], .returned⟩
      ∧ requests (main w).trace = [firstParams (userInput w)]
      ∧ toolResults (firstParams (userInput w)).Messages = [] := by
  have h := main_of_no_toolCalls w completion choice rest h1 h2 (List.length_eq_zero.mp h3)
  rw [h]
  exact ⟨rfl, by simp [requests_append, requests_prologue, requests], rfl⟩

/-- C6, at a response that is plain text. -/
theorem no_tool_calls_run_witness :
    main (worldOf ⟨"Hello", []⟩) = ⟨prologue (worldOf ⟨"Hello", []⟩)
        ++ [Event.request (firstParams (userInput (worldOf ⟨"Hello", []⟩))),
          Event.stdout "No function call"], .returned⟩
      ∧ requests (main (worldOf ⟨"Hello", []⟩)).trace
          = [firstParams (userInput (worldOf ⟨"Hello", []⟩))]
      ∧ toolResults (firstParams (userInput (worldOf ⟨"Hello", []⟩))).Messages = [] :=
  no_tool_calls_run (worldOf ⟨"Hello", []⟩) ⟨[⟨⟨"Hello", []⟩⟩]⟩ ⟨⟨"Hello", []⟩⟩ [] rfl rfl rfl

/-- C7. For a tool call named `get_weather` whose arguments decode to an object
with the string `location` under "location", the loop body appends one tool
message with content `getWeather location` and the identifier of the call; for
a call named `get_humidity` the content is `getHumidity location`. -/
theorem tool_result_content (params : ChatCompletionNewParams) (toolCall : ToolCall)
    (location : String) (hl : decodedLocation toolCall.Function.Arguments = some location) :
    (toolCall.Function.Name = "get_weather" → resolveToolCall params toolCall
        = .ok { params with Messages := params.Messages
            ++ [.ToolMessage (getWeather location) toolCall.ID] })
      ∧ (toolCall.Function.Name = "get_humidity" → resolveToolCall params toolCall
        = .ok { params with Messages := params.Messages
            ++ [.ToolMessage (getHumidity location) toolCall.ID] }) := by
  have h := resolveToolCall_ok_of_location toolCall location hl params
  constructor
  · intro hw
    rw [h]
    simp [ToolCall.named, hw]
  · intro hh
    have hw : ¬ toolCall.Function.Name = "get_weather" := by
      rw [hh]
      decide
    rw [h]
    simp [ToolCall.named, hh]

/-- C7, at the call the specification names: `get_weather` with the arguments
`{"location":"Patiala"}` yields the content "10°C". -/
theorem tool_result_content_witness :
    decodedLocation callWeather.Function.Arguments = some "Patiala"
      ∧ getWeather "Patiala" = "10°C"
      ∧ resolveToolCall (firstParams "weather?") callWeather
        = .ok { firstParams "weather?" with Messages := (firstParams "weather?").Messages
            ++ [.ToolMessage (getWeather "Patiala") callWeather.ID] } :=
  ⟨by decide, by decide,
    (tool_result_content (firstParams "weather?") callWeather "Patiala" (by decide)).1 rfl⟩

/-- C8. Whenever a second request is sent, its messages are the messages of the
first request (the single user message), then the assistant message of the
first response, then the tool-result messages, in the order of the tool calls
they answer; the run sends no other request. -/
theorem second_request_messages (w : World) (params : ChatCompletionNewParams)
    (h : (requests (main w).trace).get? 1 = some params) :
    ∃ completion choice rest, w.first = .ok completion ∧ completion.Choices = choice :: rest
      ∧ requests (main w).trace = [firstParams (userInput w), params]
      ∧ (firstParams (userInput w)).Messages = [.UserMessage (userInput w)]
      ∧ params.Messages = (firstParams (userInput w)).Messages
          ++ [.AssistantMessage choice.Message]
          ++ (choice.Message.ToolCalls.filter ToolCall.named).map toolResult
      ∧ (toolResults params.Messages).map Prod.snd
          = (choice.Message.ToolCalls.filter ToolCall.named).map ToolCall.ID := by
  rcases requests_main w with h1 | ⟨completion, choice, rest, p2, hf, hc, _, hr, hreq⟩
  · rw [h1] at h
    cases h
  · rw [hreq] at h
    have hp : p2 = params := by
      simpa using h
    subst hp
    have hshape := resolveToolCalls_of_ok _ _ _ hr
    refine ⟨completion, choice, rest, hf, hc, hreq, rfl, ?_, ?_⟩
    · rw [hshape]
      rfl
    · rw [hshape]
      simp only [withAssistant, firstParams, toolResults_append, toolResults, List.nil_append,
        List.append_nil]
      exact toolResults_map_toolResult _

/-- C8, at a response with a `get_weather` call, a call of an unknown function
and a `get_humidity` call. -/
theorem second_request_messages_witness :
    ∃ completion choice rest,
      (worldOf ⟨"", [callWeather, callOther, callHumidity]⟩).first = .ok completion
        ∧ completion.Choices = choice :: rest
        ∧ requests (main (worldOf ⟨"", [callWeather, callOther, callHumidity]⟩)).trace
          = [firstParams (userInput (worldOf ⟨"", [callWeather, callOther, callHumidity]⟩)),
              ⟨[.UserMessage "weather in Delhi?",
                .AssistantMessage ⟨"", [callWeather, callOther, callHumidity]⟩,
                .ToolMessage "10°C" "call_1", .ToolMessage "70%" "call_2"],
                ["get_weather", "get_humidity"], 0, "gpt-4o"⟩]
        ∧ (firstParams (userInput (worldOf ⟨"", [callWeather, callOther, callHumidity]⟩))).Messages
          = [.UserMessage (userInput (worldOf ⟨"", [callWeather, callOther, callHumidity]⟩))]
        ∧ [MessageParam.UserMessage "weather in Delhi?",
              .AssistantMessage ⟨"", [callWeather, callOther, callHumidity]⟩,
              .ToolMessage "10°C" "call_1", .ToolMessage "70%" "call_2"]
          = (firstParams (userInput (worldOf ⟨"", [callWeather, callOther, callHumidity]⟩))).Messages
            ++ [.AssistantMessage choice.Message]
            ++ (choice.Message.ToolCalls.filter ToolCall.named).map toolResult
        ∧ [("10°C", "call_1"), ("70%", "call_2")].map Prod.snd
          = (choice.Message.ToolCalls.filter ToolCall.named).map ToolCall.ID :=
  second_request_messages (worldOf ⟨"", [callWeather, callOther, callHumidity]⟩)
    ⟨[.UserMessage "weather in Delhi?",
      .AssistantMessage ⟨"", [callWeather, callOther, callHumidity]⟩,
      .ToolMessage "10°C" "call_1", .ToolMessage "70%" "call_2"],
      ["get_weather", "get_humidity"], 0, "gpt-4o"⟩ (by decide)

/-- C9. When the loop over the tool calls does not abort, the messages it
appends are the tool results of the calls named exactly `get_weather` or
`get_humidity`, one for each such call and in their order, and none for a call
with any other name: their number is the number of such calls. -/
theorem appended_results_count (toolCalls : List ToolCall)
    (params result : ChatCompletionNewParams)
    (h : resolveToolCalls toolCalls params = .ok result) :
    result.Messages = params.Messages ++ (toolCalls.filter ToolCall.named).map toolResult
      ∧ result.Messages.length = params.Messages.length + toolCalls.countP ToolCall.named
      ∧ (toolResults ((toolCalls.filter ToolCall.named).map toolResult)).length
          = toolCalls.countP ToolCall.named := by
  have hshape := resolveToolCalls_of_ok toolCalls params result h
  have hlen : (toolResults ((toolCalls.filter ToolCall.named).map toolResult)).length
      = ((toolCalls.filter ToolCall.named).map ToolCall.ID).length := by
    rw [← toolResults_map_toolResult, List.length_map]
  refine ⟨by rw [hshape], ?_, ?_⟩
  · rw [hshape]
    simp [List.countP_eq_length_filter]
  · rw [hlen]
    simp [List.countP_eq_length_filter]

/-- C9, at a list with a `get_weather` call, a call named `Get_Weather`, a
`get_humidity` call and a call of an unknown function: two messages are
appended. -/
theorem appended_results_count_witness :
    [callWeather, callCased, callHumidity, callOther].countP ToolCall.named = 2
      ∧ [MessageParam.UserMessage "weather?", .ToolMessage "10°C" "call_1",
          .ToolMessage "70%" "call_2"]
        = (firstParams "weather?").Messages
          ++ ([callWeather, callCased, callHumidity, callOther].filter ToolCall.named).map toolResult
      ∧ [MessageParam.UserMessage "weather?", .ToolMessage "10°C" "call_1",
          .ToolMessage "70%" "call_2"].length
        = (firstParams "weather?").Messages.length
          + [callWeather, callCased, callHumidity, callOther].countP ToolCall.named
      ∧ (toolResults (([callWeather, callCased, callHumidity, callOther].filter
          ToolCall.named).map toolResult)).length
        = [callWeather, callCased, callHumidity, callOther].countP ToolCall.named :=
  ⟨by decide, appended_results_count [callWeather, callCased, callHumidity, callOther]
    (firstParams "weather?")
    ⟨[.UserMessage "weather?", .ToolMessage "10°C" "call_1", .ToolMessage "70%" "call_2"],
      ["get_weather", "get_humidity"], 0, "gpt-4o"⟩ (by decide)⟩

end GoAgent
